import Mathlib

/-!
# A shallow embedding of `nano-clone.c`

This file embeds the core editor of `src/nano-clone.c` (a simplified
nano-like text editor) in Lean 4 and proves properties of its line-buffer
operations, viewport scrolling, load/save, and key dispatch.

Modelling conventions:
* A C line (`char *`) is a `List Char` (no terminator stored).
* The global `EditorState E` becomes an explicit `EditorState` record that
  every operation takes and returns; `E.numlines` is kept as the derived
  quantity `lines.length` (the C code keeps the two in sync at all times).
* C `int` fields (`row`, `col`, `topline`, `leftcol`, `screenrows`,
  `screencols`) are `Int`.
* Out-of-bounds pointer reads, which are undefined behaviour in C, are
  totalised with a default empty line (`lineAt`); all theorems below are
  stated on states where the access is in bounds, so the default is never
  load-bearing.
* I/O is explicit: whether `fopen(..., "w")` succeeds is an oracle
  `writable : String → Bool`; the bytes written become a returned
  `Option (List Char)`; a file read becomes a `FileResult`; `getch` inside
  the Ctrl+X handler consumes the head of an explicit input queue.
-/

/-- One text line: a byte sequence without a stored terminator. -/
abbrev Line := List Char

/-- The editor state, mirroring the C `EditorState` struct.  `numlines` is
derived (`lines.length`); the status bar is modelled as the latest message. -/
structure EditorState where
  lines : List Line
  row : Int
  col : Int
  topline : Int
  leftcol : Int
  screenrows : Int
  screencols : Int
  filename : Option String
  modified : Bool
  statusmsg : String
deriving Repr, DecidableEq

/-- `numlines` as kept by the C code: always the length of the line array. -/
def EditorState.numlines (e : EditorState) : Int := e.lines.length

/-- Read `lines[i]` with an `Int` index; out-of-bounds (C undefined
behaviour) yields the empty line. -/
def lineAt (ls : List Line) (i : Int) : Line :=
  if 0 ≤ i then ls.getD i.toNat [] else ls.getD 0 []

/-- Write `lines[i] := l` with an `Int` index; out-of-bounds is a no-op. -/
def setLine (ls : List Line) (i : Int) (l : Line) : List Line :=
  if 0 ≤ i then ls.set i.toNat l else ls

/-- ncurses key code for the up arrow. -/
def KEY_UP : Int := 259
/-- ncurses key code for the down arrow. -/
def KEY_DOWN : Int := 258
/-- ncurses key code for the left arrow. -/
def KEY_LEFT : Int := 260
/-- ncurses key code for the right arrow. -/
def KEY_RIGHT : Int := 261
/-- ncurses key code for backspace. -/
def KEY_BACKSPACE : Int := 263

/-- `editor_status_message`: stores the latest status-bar message. -/
def editor_status_message (msg : String) (e : EditorState) : EditorState :=
  { e with statusmsg := msg }

/-- `editor_insert_line`: inserts a copy of `s` at index `at_`
(`0 ≤ at_ ≤ numlines`), shifting later lines down and marking the buffer
modified; out-of-range indices are ignored. -/
def editor_insert_line (at_ : Int) (s : Line) (e : EditorState) : EditorState :=
  if at_ < 0 ∨ at_ > e.numlines then e
  else { e with lines := e.lines.insertIdx at_.toNat s, modified := true }

/-- `editor_delete_line`: removes the line at index `at_`
(`0 ≤ at_ < numlines`), shifting later lines up and marking the buffer
modified; if the buffer becomes empty, one empty line is re-inserted.
Out-of-range indices are ignored.  The cursor is not touched. -/
def editor_delete_line (at_ : Int) (e : EditorState) : EditorState :=
  if at_ < 0 ∨ at_ ≥ e.numlines then e
  else
    let e' := { e with lines := e.lines.eraseIdx at_.toNat, modified := true }
    if e'.numlines = 0 then editor_insert_line 0 [] e' else e'

/-- `editor_insert_char`: splices `ch` into the current line at the cursor
column (clamping a stray column into `[0, len]` first) and advances the
column; a cursor row out of bounds makes it a no-op. -/
def editor_insert_char (ch : Char) (e : EditorState) : EditorState :=
  if e.row < 0 ∨ e.row ≥ e.numlines then e
  else
    let line := lineAt e.lines e.row
    let len : Int := line.length
    let col0 := if e.col < 0 then 0 else e.col
    let col  := if col0 > len then len else col0
    let newline := line.take col.toNat ++ ch :: line.drop col.toNat
    { e with lines := setLine e.lines e.row newline, col := col + 1,
             modified := true }

/-- `editor_delete_char` (backspace): with `col > 0` removes the byte before
the cursor; at `(0,0)` a no-op; at column 0 of a later row, merges the
current line onto the end of the previous one, dropping the current line and
moving the cursor to the join point. -/
def editor_delete_char (e : EditorState) : EditorState :=
  if e.row < 0 ∨ e.row ≥ e.numlines then e
  else if e.col = 0 ∧ e.row = 0 then e
  else
    let line := lineAt e.lines e.row
    if e.col > 0 then
      let newline := line.take (e.col - 1).toNat ++ line.drop e.col.toNat
      { e with lines := setLine e.lines e.row newline, col := e.col - 1,
               modified := true }
    else
      let prev := lineAt e.lines (e.row - 1)
      let merged := prev ++ line
      { e with lines := setLine (e.lines.eraseIdx e.row.toNat) (e.row - 1) merged,
               row := e.row - 1, col := (prev.length : Int), modified := true }

/-- `editor_move_cursor`: one cursor step for an arrow key, clamping the
column to the target line's length on vertical moves and wrapping to the
adjacent line's end/start at horizontal line boundaries. -/
def editor_move_cursor (key : Int) (e : EditorState) : EditorState :=
  if key = KEY_UP then
    let e1 := if e.row > 0 then { e with row := e.row - 1 } else e
    if e1.col > ((lineAt e1.lines e1.row).length : Int) then
      { e1 with col := ((lineAt e1.lines e1.row).length : Int) }
    else e1
  else if key = KEY_DOWN then
    let e1 := if e.row < e.numlines - 1 then { e with row := e.row + 1 } else e
    if e1.col > ((lineAt e1.lines e1.row).length : Int) then
      { e1 with col := ((lineAt e1.lines e1.row).length : Int) }
    else e1
  else if key = KEY_LEFT then
    if e.col > 0 then { e with col := e.col - 1 }
    else if e.row > 0 then
      { e with row := e.row - 1,
               col := ((lineAt e.lines (e.row - 1)).length : Int) }
    else e
  else if key = KEY_RIGHT then
    if e.col < ((lineAt e.lines e.row).length : Int) then
      { e with col := e.col + 1 }
    else if e.row < e.numlines - 1 then
      { e with row := e.row + 1, col := 0 }
    else e
  else e

/-- The Enter (`\r`/`\n`) handler inlined in `editor_process_key`: move down
one line clamping the column, or append a fresh empty line when already on
the last line — the current line is never split. -/
def editor_insert_newline (e : EditorState) : EditorState :=
  if e.row < e.numlines - 1 then
    let e1 := { e with row := e.row + 1 }
    let line_len : Int := (lineAt e1.lines e1.row).length
    if e1.col > line_len then { e1 with col := line_len } else e1
  else
    let e1 := editor_insert_line e.numlines [] e
    { e1 with row := e1.row + 1, col := 0 }

/-- The byte stream `editor_save_file`'s write loop produces: each line in
order, each followed by `\n` (the C loop `fprintf(fp, "%s\n", lines[i])`). -/
def save_stream (lines : List Line) : List Char :=
  lines.foldl (fun acc l => acc ++ l ++ ['\n']) []

/-- `editor_save_file`: defaults a missing filename to `untitled.txt`, then
either fails to open (status message, result `-1`, nothing written, modified
flag untouched) or writes every line newline-terminated, clears the modified
flag and returns `0`.  `writable` is the `fopen(..., "w")` oracle; the third
component is the byte stream written, if any. -/
def editor_save_file (writable : String → Bool) (e : EditorState) :
    Int × EditorState × Option (List Char) :=
  let e1 := if e.filename = none then { e with filename := some "untitled.txt" } else e
  let fname := e1.filename.getD ""
  if writable fname then
    (0, editor_status_message "File saved successfully!" { e1 with modified := false },
     some (save_stream e1.lines))
  else
    (-1, editor_status_message "Error: Cannot open file for writing!" e1, none)

/-- Outcome of `fopen(filename, "r")` plus the file's bytes: the file may be
absent (`ENOENT`), unreadable for another reason, or present with contents. -/
inductive FileResult where
  | absent : FileResult
  | openError : FileResult
  | content : List Char → FileResult

/-- `getline` semantics: cut a byte stream into lines, each including its
trailing `\n` except possibly the last. -/
def getlines : List Char → List (List Char)
  | [] => []
  | c :: rest =>
    if c = '\n' then ['\n'] :: getlines rest
    else
      match getlines rest with
      | [] => [[c]]
      | l :: ls => (c :: l) :: ls

/-- The newline-stripping step of `editor_load_file`: drop a single trailing
`\n` or `\r` (never both) from a nonempty line. -/
def stripNl (l : Line) : Line :=
  match l.getLast? with
  | some c => if c = '\n' ∨ c = '\r' then l.dropLast else l
  | none => l

/-- `editor_load_file`: an absent file starts an empty buffer; any other
open error starts an empty buffer and surfaces a status message; otherwise
every `getline` line is stripped of one trailing newline and appended, and a
buffer that ends up with zero lines gets one empty line. -/
def editor_load_file (fr : FileResult) (e : EditorState) : EditorState :=
  match fr with
  | .absent => editor_insert_line 0 [] e
  | .openError => editor_status_message "Error opening file."
      (editor_insert_line 0 [] e)
  | .content cs =>
    let e1 := (getlines cs).foldl
      (fun acc l => editor_insert_line acc.numlines (stripNl l) acc) e
    if e1.numlines = 0 then editor_insert_line 0 [] e1 else e1

/-- `editor_init`: zero the state (reserving 3 status rows), then either
load the named file or insert one empty line, and set the help message.
`rows`/`cols` are the terminal dimensions from `getmaxyx`. -/
def editor_init (filename : Option String) (fr : FileResult)
    (rows cols : Int) : EditorState :=
  let e : EditorState :=
    { lines := [], row := 0, col := 0, topline := 0, leftcol := 0,
      screenrows := rows - 3, screencols := cols,
      filename := none, modified := false, statusmsg := "" }
  let e1 :=
    match filename with
    | some f => editor_load_file fr { e with filename := some f }
    | none => editor_insert_line 0 [] e
  editor_status_message "HELP: Ctrl+O = Save | Ctrl+X = Exit" e1

/-- C `isprint` on the ASCII range: the printable codes 32–126. -/
def isprint (c : Int) : Bool := 32 ≤ c ∧ c ≤ 126

/-- `editor_process_key`: dispatch one key.  `input` is the pending input
queue (`getch` takes its head; an empty queue would block, modelled as
leaving the state unchanged); `writable` is the save oracle.  Returns the
new state, the remaining queue, and whether the session exited.  Ctrl+X (24)
on a modified buffer prompts and consumes one more key, exiting only if that
key is again Ctrl+X and otherwise discarding it; Ctrl+O (15) saves. -/
def editor_process_key (c : Int) (input : List Int) (writable : String → Bool)
    (e : EditorState) : EditorState × List Int × Bool :=
  if c = 24 then
    if e.modified then
      let e1 := editor_status_message
        "File modified. Ctrl+O to save, Ctrl+X to exit without saving." e
      match input with
      | [] => (e1, [], false)
      | c2 :: rest => if c2 ≠ 24 then (e1, rest, false) else (e1, rest, true)
    else (e, input, true)
  else if c = 15 then ((editor_save_file writable e).2.1, input, false)
  else
    let e1 :=
      if c = KEY_UP ∨ c = KEY_DOWN ∨ c = KEY_LEFT ∨ c = KEY_RIGHT then
        editor_move_cursor c e
      else if c = KEY_BACKSPACE ∨ c = 127 then
        editor_delete_char e
      else if c = 13 ∨ c = 10 then
        editor_insert_newline e
      else if isprint c then
        editor_insert_char (Char.ofNat c.toNat) e
      else e
    (e1, input, false)

/-- `editor_scroll`: pull `topline`/`leftcol` the minimal distance needed to
bring the cursor back inside the `screenrows × screencols` window. -/
def editor_scroll (e : EditorState) : EditorState :=
  let e1 := if e.row < e.topline then { e with topline := e.row } else e
  let e2 := if e1.row ≥ e1.topline + e1.screenrows then
      { e1 with topline := e1.row - e1.screenrows + 1 } else e1
  let e3 := if e2.col < e2.leftcol then { e2 with leftcol := e2.col } else e2
  if e3.col ≥ e3.leftcol + e3.screencols then
    { e3 with leftcol := e3.col - e3.screencols + 1 } else e3

/-- A valid editor state: the spec's cursor invariant — the row indexes an
existing line and the column lies within `[0, length
 of that line]`. -/
def EditorState.Valid (e : EditorState) : Prop :=
  0 ≤ e.row ∧ e.row < e.numlines ∧ 0 ≤ e.col ∧
    e.col ≤ ((lineAt e.lines e.row).length : Int)

instance (e : EditorState) : Decidable e.Valid := by
  unfold EditorState.Valid; infer_instance


/-! ## Basic lemmas about the indexing helpers -/

lemma length_setLine (ls : List Line) (i : Int) (l : Line) :
    (setLine ls i l).length = ls.length := by
  unfold setLine; split <;> simp

lemma lineAt_setLine_self (ls : List Line) (i : Int) (l : Line)
    (h0 : 0 ≤ i) (h1 : i < (ls.length : Int)) :
    lineAt (setLine ls i l) i = l := by
  have ht : i.toNat < ls.length := by omega
  unfold lineAt setLine
  rw [if_pos h0, if_pos h0, List.getD_eq_getElem _ _ (by simpa using ht),
    List.getElem_set_self]

/-! ## Preservation of the cursor invariant, operation by operation -/

lemma valid_insert_char (ch : Char) (e : EditorState) (h : e.Valid) :
    (editor_insert_char ch e).Valid := by
  obtain ⟨h1, h2, h3, h4⟩ := h
  simp only [EditorState.numlines] at h2
  unfold editor_insert_char
  dsimp only
  rw [if_neg (by dsimp only [EditorState.numlines]; omega),
    if_neg (by omega : ¬ e.col < 0), if_neg (by omega)]
  dsimp only [EditorState.Valid, EditorState.numlines]
  rw [length_setLine, lineAt_setLine_self _ _ _ h1 (by exact_mod_cast h2)]
  simp only [List.length_append, List.length_take, List.length_cons,
    List.length_drop]
  omega

lemma valid_delete_char (e : EditorState) (h : e.Valid) :
    (editor_delete_char e).Valid := by
  obtain ⟨h1, h2, h3, h4⟩ := h
  simp only [EditorState.numlines] at h2
  unfold editor_delete_char
  dsimp only
  rw [if_neg (by dsimp only [EditorState.numlines]; omega)]
  by_cases h0 : e.col = 0 ∧ e.row = 0
  · rw [if_pos h0]
    exact ⟨h1, h2, h3, h4⟩
  · rw [if_neg h0]
    by_cases hc : e.col > 0
    · rw [if_pos hc]
      dsimp only [EditorState.Valid, EditorState.numlines]
      rw [length_setLine, lineAt_setLine_self _ _ _ h1 (by exact_mod_cast h2)]
      simp only [List.length_append, List.length_take, List.length_drop]
      omega
    · rw [if_neg hc]
      have hrow : 1 ≤ e.row := by
        by_contra hh
        exact h0 ⟨by omega, by omega⟩
      have hlen : (e.lines.eraseIdx e.row.toNat).length = e.lines.length - 1 := by
        rw [List.length_eraseIdx, if_pos (by omega : e.row.toNat < e.lines.length)]
      dsimp only [EditorState.Valid, EditorState.numlines]
      rw [length_setLine, hlen,
        lineAt_setLine_self _ _ _ (by omega) (by rw [hlen]; omega)]
      simp only [List.length_append]
      omega

lemma valid_move_cursor (key : Int) (e : EditorState) (h : e.Valid) :
    (editor_move_cursor key e).Valid := by
  obtain ⟨h1, h2, h3, h4⟩ := h
  simp only [EditorState.numlines] at h2
  unfold editor_move_cursor
  dsimp only
  split_ifs <;> (dsimp only [EditorState.Valid, EditorState.numlines] at * ; omega)

lemma valid_insert_newline (e : EditorState) (h : e.Valid) :
    (editor_insert_newline e).Valid := by
  obtain ⟨h1, h2, h3, h4⟩ := h
  simp only [EditorState.numlines] at h2
  unfold editor_insert_newline editor_insert_line
  dsimp only [EditorState.numlines]
  by_cases hb : e.row < (e.lines.length : Int) - 1
  · rw [if_pos hb]
    split_ifs <;> (dsimp only [EditorState.Valid, EditorState.numlines] at * ; omega)
  · rw [if_neg hb, if_neg (by omega)]
    dsimp only [EditorState.Valid, EditorState.numlines]
    rw [show ((e.lines.length : Int)).toNat = e.lines.length by omega,
      List.insertIdx_length_self]
    simp only [List.length_append, List.length_cons]
    omega

/-! ## Concrete states used by counterexamples and witnesses -/

/-- A valid two-line state with the cursor at the end of the last line. -/
def c1ex : EditorState :=
  { lines := [['a'], ['b']], row := 1, col := 1, topline := 0, leftcol := 0,
    screenrows := 24, screencols := 80, filename := none, modified := false,
    statusmsg := "" }

/-! ## C1 -/

/-- C1 counterexample: the claim "after every Line Buffer operation
(including `deleteLine`) applied to a valid editor state the cursor satisfies
row ∈ [0, numLines-1] and col ∈ [0, len(lines[row])]" is false on the code:
`editor_delete_line` never touches the cursor, so deleting line 1 of the
valid state `c1ex` (two lines, cursor at row 1) leaves `row = 1` in a
one-line document — out of bounds instead of clamped. -/
theorem C1_counterexample :
    c1ex.Valid ∧ ¬ (editor_delete_line 1 c1ex).Valid := by decide

/-- C1 (amended): the cursor bounds `row ∈ [0, numLines-1]`,
`col ∈ [0, len(lines[row])]` are preserved by `insertChar`, `deleteChar`,
`moveCursor` (each single step and any sequence of steps), and
`insertNewline`, from any valid starting state; `insertLine` and
`deleteLine` do not adjust the cursor and are excluded — they can leave the
cursor out of bounds. -/
theorem C1_cursor_invariant (e : EditorState) (h : e.Valid) :
    (∀ ch, (editor_insert_char ch e).Valid) ∧
    (editor_delete_char e).Valid ∧
    (∀ key, (editor_move_cursor key e).Valid) ∧
    (editor_insert_newline e).Valid ∧
    (∀ keys : List Int,
      (keys.foldl (fun s k => editor_move_cursor k s) e).Valid) := by
  have hseq : ∀ (keys : List Int) (s : EditorState), s.Valid →
      (keys.foldl (fun s' k => editor_move_cursor k s') s).Valid := by
    intro keys
    induction keys with
    | nil => exact fun s hs => hs
    | cons k ks ih => exact fun s hs => ih _ (valid_move_cursor k s hs)
  exact ⟨fun ch => valid_insert_char ch e h, valid_delete_char e h,
    fun key => valid_move_cursor key e h, valid_insert_newline e h,
    fun keys => hseq keys e h⟩

/-- C1 witness: the amended invariant instantiated on the concrete valid
state `c1ex` and the move sequence up, right, down. -/
theorem C1_cursor_invariant_witness :
    c1ex.Valid ∧
    ([KEY_UP, KEY_RIGHT, KEY_DOWN].foldl
      (fun s k => editor_move_cursor k s) c1ex).Valid :=
  ⟨by decide,
   (C1_cursor_invariant c1ex (by decide)).2.2.2.2 [KEY_UP, KEY_RIGHT, KEY_DOWN]⟩

/-! ## C2 -/

/-- C2: `deleteLine` never reduces the document to zero lines — for every
document with at least one line and every index, after `editor_delete_line`
the document still has at least one line (deleting the only line re-inserts
one empty line; out-of-range indices are no-ops). -/
theorem C2_delete_line_nonempty (at_ : Int) (e : EditorState)
    (h : 1 ≤ e.numlines) : 1 ≤ (editor_delete_line at_ e).numlines := by
  simp only [EditorState.numlines] at h ⊢
  unfold editor_delete_line editor_insert_line
  dsimp only [EditorState.numlines]
  split_ifs with hg h0 hg2
  · exact h
  · omega
  · dsimp only
    rw [show ((0 : Int)).toNat = 0 from rfl,
      List.length_insertIdx 0 _ (Nat.zero_le _)]
    omega
  · dsimp only
    omega

/-- C2 witness: deleting the only line of a one-line document leaves one
line. -/
theorem C2_delete_line_nonempty_witness :
    1 ≤ EditorState.numlines
      { lines := [['a']], row := 0, col := 0, topline := 0, leftcol := 0,
        screenrows := 24, screencols := 80, filename := none,
        modified := false, statusmsg := "" } ∧
    1 ≤ (editor_delete_line 0
      { lines := [['a']], row := 0, col := 0, topline := 0, leftcol := 0,
        screenrows := 24, screencols := 80, filename := none,
        modified := false, statusmsg := "" }).numlines :=
  ⟨by decide, C2_delete_line_nonempty 0 _ (by decide)⟩

/-- In-bounds `setLine` is `List.set`. -/
lemma setLine_eq_set (ls : List Line) (i : Int) (l : Line) (h : 0 ≤ i) :
    setLine ls i l = ls.set i.toNat l := if_pos h

/-- Writing back the element already at an index is the identity. -/
lemma set_self_eq (ls : List Line) (n : Nat) (h : n < ls.length) :
    ls.set n ls[n] = ls := by
  apply List.ext_getElem (by simp)
  intro i h1 h2
  rw [List.getElem_set]
  split <;> simp_all

/-- Writing back the line already at an in-bounds index is the identity. -/
lemma setLine_lineAt_self (ls : List Line) (i : Int) (h0 : 0 ≤ i)
    (h1 : i < (ls.length : Int)) : setLine ls i (lineAt ls i) = ls := by
  rw [setLine_eq_set _ _ _ h0]
  unfold lineAt
  rw [if_pos h0, List.getD_eq_getElem _ _ (by omega)]
  exact set_self_eq ls i.toNat (by omega)

/-- The C merge dance (`memmove` one slot up, then overwrite the previous
slot): erasing index `r` and overwriting index `r-1` with `m` replaces the
two neighbouring lines by the single line `m`. -/
lemma eraseIdx_set_pred (m : Line) (ls : List Line) (r : Nat)
    (hr : 1 ≤ r) (hlt : r < ls.length) :
    (ls.eraseIdx r).set (r - 1) m = ls.take (r - 1) ++ m :: ls.drop (r + 1) := by
  induction ls generalizing r with
  | nil => simp at hlt
  | cons a t ih =>
    match r, hr with
    | 1, _ =>
      simp [List.eraseIdx_cons_succ, List.eraseIdx_zero, List.drop_one]
    | (s + 2), _ =>
      have hrec := ih (s + 1) (by omega) (by simp at hlt; omega)
      simp only [Nat.add_sub_cancel, show s + 1 + 1 = s + 2 from by omega] at hrec
      simp only [List.eraseIdx_cons_succ, show s + 2 - 1 = s + 1 from rfl,
        List.set_cons_succ, List.take_succ_cons, List.drop_succ_cons]
      rw [hrec, List.cons_append]

/-! ## C3 -/

/-- The claim's merge scenario: document `["ab","cd"]`, cursor `(1,0)`. -/
def c3ex : EditorState :=
  { lines := [['a','b'], ['c','d']], row := 1, col := 0, topline := 0,
    leftcol := 0, screenrows := 24, screencols := 80, filename := none,
    modified := false, statusmsg := "" }

/-- C3: `deleteChar` has backspace semantics on every valid state: with
`col > 0` it removes exactly the byte before the cursor and decrements the
column; at `(0,0)` it is a no-op; at column 0 of a later row it replaces the
previous and current lines by their concatenation and moves the cursor to
`(row-1, length of the previous line)`. -/
theorem C3_delete_char_semantics (e : EditorState) (h : e.Valid) :
    (0 < e.col →
      (editor_delete_char e).lines =
        e.lines.set e.row.toNat
          ((lineAt e.lines e.row).eraseIdx (e.col - 1).toNat) ∧
      (editor_delete_char e).row = e.row ∧
      (editor_delete_char e).col = e.col - 1) ∧
    (e.col = 0 ∧ e.row = 0 → editor_delete_char e = e) ∧
    (e.col = 0 ∧ 0 < e.row →
      (editor_delete_char e).lines =
        e.lines.take (e.row - 1).toNat ++
          (lineAt e.lines (e.row - 1) ++ lineAt e.lines e.row) ::
            e.lines.drop (e.row + 1).toNat ∧
      (editor_delete_char e).row = e.row - 1 ∧
      (editor_delete_char e).col = ((lineAt e.lines (e.row - 1)).length : Int)) := by
  obtain ⟨h1, h2, h3, h4⟩ := h
  simp only [EditorState.numlines] at h2
  refine ⟨?_, ?_, ?_⟩
  · intro hc
    unfold editor_delete_char
    dsimp only
    rw [if_neg (by dsimp only [EditorState.numlines]; omega),
      if_neg (by omega), if_pos (by omega : e.col > 0)]
    refine ⟨?_, rfl, rfl⟩
    dsimp only
    rw [setLine_eq_set _ _ _ h1, List.eraseIdx_eq_take_drop_succ,
      show (e.col - 1).toNat + 1 = e.col.toNat by omega]
  · rintro ⟨hc, hr⟩
    unfold editor_delete_char
    dsimp only
    rw [if_neg (by dsimp only [EditorState.numlines]; omega), if_pos ⟨hc, hr⟩]
  · rintro ⟨hc, hr⟩
    unfold editor_delete_char
    dsimp only
    rw [if_neg (by dsimp only [EditorState.numlines]; omega),
      if_neg (by omega), if_neg (by omega : ¬ e.col > 0)]
    refine ⟨?_, rfl, rfl⟩
    dsimp only
    rw [setLine_eq_set _ _ _ (by omega),
      show (e.row - 1).toNat = e.row.toNat - 1 by omega,
      eraseIdx_set_pred _ _ _ (by omega) (by omega),
      show e.row.toNat - 1 = (e.row - 1).toNat by omega,
      show e.row.toNat + 1 = (e.row + 1).toNat by omega]

/-- C3 witness: on `["ab","cd"]` with cursor `(1,0)`, `deleteChar` merges up
to `["abcd"]` with cursor `(0,2)`. -/
theorem C3_delete_char_semantics_witness :
    c3ex.Valid ∧
    ((editor_delete_char c3ex).lines =
        c3ex.lines.take (c3ex.row - 1).toNat ++
          (lineAt c3ex.lines (c3ex.row - 1) ++ lineAt c3ex.lines c3ex.row) ::
            c3ex.lines.drop (c3ex.row + 1).toNat ∧
      (editor_delete_char c3ex).row = c3ex.row - 1 ∧
      (editor_delete_char c3ex).col =
        ((lineAt c3ex.lines (c3ex.row - 1)).length : Int)) ∧
    (editor_delete_char c3ex).lines = [['a','b','c','d']] ∧
    (editor_delete_char c3ex).row = 0 ∧ (editor_delete_char c3ex).col = 2 :=
  ⟨by decide, (C3_delete_char_semantics c3ex (by decide)).2.2 ⟨by decide, by decide⟩,
   by decide, by decide, by decide⟩

/-- Two successive writes to the same slot keep only the second. -/
lemma setLine_setLine (ls : List Line) (i : Int) (a b : Line) :
    setLine (setLine ls i a) i b = setLine ls i b := by
  unfold setLine; split <;> simp [List.set_set]

/-! ## C4 -/

/-- A one-line document with the cursor at the very first position. -/
def c4ex : EditorState :=
  { lines := [['q']], row := 0, col := 0, topline := 0, leftcol := 0,
    screenrows := 24, screencols := 80, filename := none, modified := false,
    statusmsg := "" }

/-- C4: on every valid state, `insertChar ch` immediately followed by
`deleteChar` (no cursor move in between) restores the line contents and the
cursor exactly — including at the document's very first position `(0,0)`,
so the claim's stated exception there is vacuously covered. -/
theorem C4_insert_delete_roundtrip (ch : Char) (e : EditorState) (h : e.Valid) :
    (editor_delete_char (editor_insert_char ch e)).lines = e.lines ∧
    (editor_delete_char (editor_insert_char ch e)).row = e.row ∧
    (editor_delete_char (editor_insert_char ch e)).col = e.col := by
  obtain ⟨h1, h2, h3, h4⟩ := h
  simp only [EditorState.numlines] at h2
  unfold editor_insert_char
  dsimp only
  rw [if_neg (by dsimp only [EditorState.numlines]; omega),
    if_neg (by omega : ¬ e.col < 0), if_neg (by omega)]
  unfold editor_delete_char
  dsimp only [EditorState.numlines]
  rw [length_setLine,
    if_neg (by omega :
      ¬ (e.row < 0 ∨ e.row ≥ (e.lines.length : Int))),
    if_neg (by rintro ⟨a, -⟩; omega), if_pos (by omega : e.col + 1 > 0),
    lineAt_setLine_self _ _ _ h1 (by exact_mod_cast h2),
    show (e.col + 1 - 1).toNat = e.col.toNat from by omega,
    List.take_append_of_le_length (by simp [List.length_take]; omega),
    List.take_take, min_self,
    show (e.col + 1).toNat =
      (List.take e.col.toNat (lineAt e.lines e.row)).length + 1 from by
        simp [List.length_take]; omega,
    List.drop_append, List.drop_one, List.tail_cons, List.take_append_drop,
    setLine_setLine, setLine_lineAt_self _ _ h1 (by exact_mod_cast h2)]
  exact ⟨rfl, rfl, by dsimp only; omega⟩

/-- C4 witness: the round-trip at the document's first position `(0,0)` of
the one-line document `["q"]`. -/
theorem C4_insert_delete_roundtrip_witness :
    c4ex.Valid ∧
    (editor_delete_char (editor_insert_char 'x' c4ex)).lines = c4ex.lines ∧
    (editor_delete_char (editor_insert_char 'x' c4ex)).row = c4ex.row ∧
    (editor_delete_char (editor_insert_char 'x' c4ex)).col = c4ex.col :=
  ⟨by decide, C4_insert_delete_roundtrip 'x' c4ex (by decide)⟩

/-! ## C5 -/

/-- A state whose cursor is below and left of the scroll window. -/
def c5ex : EditorState :=
  { lines := [['a']], row := 30, col := 3, topline := 2, leftcol := 5,
    screenrows := 21, screencols := 80, filename := none, modified := false,
    statusmsg := "" }

/-- C5: for any cursor position and scroll offsets and any positive screen
size, `editor_scroll` brings the cursor inside the window
(`topline ≤ row < topline + screenrows`, `leftcol ≤ col < leftcol +
screencols`) by the minimal adjustment: a cursor above the window pulls
`topline` to `row`, below pushes it to `row - screenrows + 1`, and a visible
cursor leaves the offset unchanged (no recentering); the columns behave the
same, and the cursor and screen size are untouched. -/
theorem C5_scroll_invariant (e : EditorState)
    (hr : 0 < e.screenrows) (hc : 0 < e.screencols) :
    (editor_scroll e).topline ≤ e.row ∧
    e.row < (editor_scroll e).topline + e.screenrows ∧
    (editor_scroll e).leftcol ≤ e.col ∧
    e.col < (editor_scroll e).leftcol + e.screencols ∧
    (e.row < e.topline → (editor_scroll e).topline = e.row) ∧
    (e.row ≥ e.topline + e.screenrows →
      (editor_scroll e).topline = e.row - e.screenrows + 1) ∧
    (e.topline ≤ e.row ∧ e.row < e.topline + e.screenrows →
      (editor_scroll e).topline = e.topline) ∧
    (e.col < e.leftcol → (editor_scroll e).leftcol = e.col) ∧
    (e.col ≥ e.leftcol + e.screencols →
      (editor_scroll e).leftcol = e.col - e.screencols + 1) ∧
    (e.leftcol ≤ e.col ∧ e.col < e.leftcol + e.screencols →
      (editor_scroll e).leftcol = e.leftcol) ∧
    (editor_scroll e).row = e.row ∧ (editor_scroll e).col = e.col ∧
    (editor_scroll e).screenrows = e.screenrows ∧
    (editor_scroll e).screencols = e.screencols := by
  unfold editor_scroll
  dsimp only
  split_ifs <;> ((try dsimp only at *) ; omega)

/-- C5 witness: on `c5ex` (cursor at `(30,3)`, window at `(2,5)`, size
`21×80`) scrolling lands the window at `topline = 10`, `leftcol = 3` and the
cursor is inside it. -/
theorem C5_scroll_invariant_witness :
    0 < c5ex.screenrows ∧ 0 < c5ex.screencols ∧
    ((editor_scroll c5ex).topline ≤ c5ex.row ∧
     c5ex.row < (editor_scroll c5ex).topline + c5ex.screenrows ∧
     (editor_scroll c5ex).leftcol ≤ c5ex.col ∧
     c5ex.col < (editor_scroll c5ex).leftcol + c5ex.screencols) ∧
    (editor_scroll c5ex).topline = 10 ∧ (editor_scroll c5ex).leftcol = 3 :=
  ⟨by decide, by decide,
   (fun h => ⟨h.1, h.2.1, h.2.2.1, h.2.2.2.1⟩)
     (C5_scroll_invariant c5ex (by decide) (by decide)),
   by decide, by decide⟩

/-! ## C6 -/

/-- The save loop's accumulator form of the written bytes. -/
lemma save_stream_append (lines : List Line) (acc : List Char) :
    lines.foldl (fun a l => a ++ l ++ ['\n']) acc =
      acc ++ (lines.map (fun l => l ++ ['\n'])).flatten := by
  induction lines generalizing acc with
  | nil => simp
  | cons l t ih => rw [List.foldl_cons, ih]; simp

/-- The bytes `editor_save_file` writes are exactly every line followed by a
newline, in document order. -/
lemma save_stream_eq (lines : List Line) :
    save_stream lines = (lines.map (fun l => l ++ ['\n'])).flatten := by
  unfold save_stream
  simpa using save_stream_append lines []

/-- C6: `editor_save_file` defaults a never-set filename to
`untitled.txt`; on success it returns 0, writes each line followed by a
newline in order, and clears the modified flag; on failure it returns the
distinct signal `-1`, writes nothing, and leaves the modified flag (and the
document) unchanged, so editing continues. -/
theorem C6_save_semantics (writable : String → Bool) (e : EditorState) :
    (editor_save_file writable e).2.1.filename =
      some (e.filename.getD "untitled.txt") ∧
    (editor_save_file writable e).2.1.lines = e.lines ∧
    (if writable (e.filename.getD "untitled.txt") then
       (editor_save_file writable e).1 = 0 ∧
       (editor_save_file writable e).2.1.modified = false ∧
       (editor_save_file writable e).2.2 =
         some ((e.lines.map (fun l => l ++ ['\n'])).flatten)
     else
       (editor_save_file writable e).1 = -1 ∧
       (editor_save_file writable e).2.1.modified = e.modified ∧
       (editor_save_file writable e).2.2 = none) := by
  unfold editor_save_file editor_status_message
  rcases hf : e.filename with _ | s
  · by_cases hw : writable "untitled.txt" <;>
      simp [hf, hw, save_stream_eq]
  · by_cases hw : writable s <;>
      simp [hf, hw, save_stream_eq]

/-! ## C7 -/

/-- C7: `insertNewline` never splits the current line: off the last line it
only moves the cursor down one row, clamping the column to that line's
length, leaving the lines unchanged; on the last line it appends exactly one
empty line and puts the cursor at its start. -/
theorem C7_insert_newline_semantics (e : EditorState) (h : e.Valid) :
    (e.row < e.numlines - 1 →
      (editor_insert_newline e).lines = e.lines ∧
      (editor_insert_newline e).row = e.row + 1 ∧
      (editor_insert_newline e).col =
        min e.col ((lineAt e.lines (e.row + 1)).length : Int)) ∧
    (e.row = e.numlines - 1 →
      (editor_insert_newline e).lines = e.lines ++ [[]] ∧
      (editor_insert_newline e).row = e.row + 1 ∧
      (editor_insert_newline e).col = 0) := by
  obtain ⟨h1, h2, h3, h4⟩ := h
  simp only [EditorState.numlines] at h2 ⊢
  constructor
  · intro hb
    unfold editor_insert_newline
    dsimp only [EditorState.numlines]
    rw [if_pos hb]
    split_ifs with hcl
    · exact ⟨rfl, rfl, by dsimp only at hcl ⊢; omega⟩
    · exact ⟨rfl, rfl, by dsimp only at hcl ⊢; omega⟩
  · intro hb
    unfold editor_insert_newline editor_insert_line
    dsimp only [EditorState.numlines]
    rw [if_neg (by omega), if_neg (by omega)]
    dsimp only
    rw [show ((e.lines.length : Int)).toNat = e.lines.length by omega,
      List.insertIdx_length_self]
    exact ⟨rfl, rfl, rfl⟩

/-- A two-line document with the cursor at the end of the first line. -/
def c7ex : EditorState :=
  { lines := [['a','b'], ['c']], row := 0, col := 2, topline := 0,
    leftcol := 0, screenrows := 24, screencols := 80, filename := none,
    modified := false, statusmsg := "" }

/-- C7 witness: on `["ab","c"]` with cursor `(0,2)`, Enter moves the cursor
to `(1,1)` without splitting; a second Enter on the last line appends an
empty line. -/
theorem C7_insert_newline_semantics_witness :
    c7ex.Valid ∧
    (c7ex.row < c7ex.numlines - 1 ∧
      (editor_insert_newline c7ex).lines = c7ex.lines ∧
      (editor_insert_newline c7ex).row = c7ex.row + 1 ∧
      (editor_insert_newline c7ex).col =
        min c7ex.col ((lineAt c7ex.lines (c7ex.row + 1)).length : Int)) ∧
    (editor_insert_newline (editor_insert_newline c7ex)).lines =
      [['a','b'], ['c'], []] :=
  ⟨by decide,
   ⟨by decide, (C7_insert_newline_semantics c7ex (by decide)).1 (by decide)⟩,
   by decide⟩

/-! ## C8 -/

/-- `getline` cuts a newline-terminated chunk off the front of the stream. -/
lemma getlines_append_newline (l rest : List Char) (h : '\n' ∉ l) :
    getlines ((l ++ ['\n']) ++ rest) = (l ++ ['\n']) :: getlines rest := by
  induction l with
  | nil => simp [getlines]
  | cons c t ih =>
    have hc : ¬ c = '\n' := fun hh => h (hh ▸ List.mem_cons_self c t)
    have ht : '\n' ∉ t := fun hh => h (List.mem_cons_of_mem c hh)
    simp only [List.cons_append]
    rw [getlines, if_neg hc, ih ht]

/-- Loading strips exactly the one trailing newline the save appended. -/
lemma stripNl_concat_newline (l : List Char) : stripNl (l ++ ['\n']) = l := by
  unfold stripNl
  rw [List.getLast?_concat]
  simp

/-- `getline` over a saved stream recovers the newline-terminated lines. -/
lemma getlines_flatten (lines : List Line) (h : ∀ l ∈ lines, '\n' ∉ l) :
    getlines ((lines.map (fun l => l ++ ['\n'])).flatten) =
      lines.map (fun l => l ++ ['\n']) := by
  induction lines with
  | nil => simp [getlines]
  | cons l t ih =>
    simp only [List.map_cons, List.flatten_cons]
    rw [show l ++ ['\n'] ++ (t.map (fun x => x ++ ['\n'])).flatten =
        (l ++ ['\n']) ++ (t.map (fun x => x ++ ['\n'])).flatten from rfl,
      getlines_append_newline _ _ (h l (List.mem_cons_self l t)),
      ih (fun x hx => h x (List.mem_cons_of_mem l hx))]

/-- The load loop appends each stripped `getline` line to the buffer and
marks the buffer modified as soon as it inserts anything. -/
lemma load_foldl (ls : List (List Char)) (e : EditorState) :
    ls.foldl (fun acc l => editor_insert_line acc.numlines (stripNl l) acc) e =
      { e with lines := e.lines ++ ls.map stripNl,
               modified := e.modified || !ls.isEmpty } := by
  induction ls generalizing e with
  | nil => simp
  | cons l t ih =>
    rw [List.foldl_cons]
    have hstep : editor_insert_line e.numlines (stripNl l) e =
        { e with lines := e.lines ++ [stripNl l], modified := true } := by
      unfold editor_insert_line
      rw [if_neg (by dsimp only [EditorState.numlines]; omega)]
      dsimp only [EditorState.numlines]
      rw [show ((e.lines.length : Int)).toNat = e.lines.length by omega,
        List.insertIdx_length_self]
    rw [hstep, ih]
    simp

/-- A zeroed editor state with an empty line array, as at the start of
`editor_init` before any line is inserted. -/
def c8base : EditorState :=
  { lines := [], row := 0, col := 0, topline := 0, leftcol := 0,
    screenrows := 24, screencols := 80, filename := none, modified := false,
    statusmsg := "" }

/-- C8: save-then-load is a round-trip on line contents: saving writes each
line newline-terminated in order, and loading the written byte stream into a
fresh buffer reproduces exactly the same lines in the same order, for every
nonempty document whose lines contain no newline byte. -/
theorem C8_save_load_roundtrip (e e0 : EditorState)
    (h1 : e.lines ≠ []) (h2 : ∀ l ∈ e.lines, '\n' ∉ l)
    (h0 : e0.lines = []) :
    (editor_load_file
      (FileResult.content ((editor_save_file (fun _ => true) e).2.2.getD []))
      e0).lines = e.lines := by
  have hsave : (editor_save_file (fun _ => true) e).2.2 =
      some (save_stream e.lines) := by
    unfold editor_save_file
    rcases e.filename with _ | s <;> simp
  rw [hsave]
  simp only [Option.getD_some]
  unfold editor_load_file
  dsimp only
  rw [load_foldl, h0]
  rw [save_stream_eq, getlines_flatten e.lines h2]
  have hmap : (e.lines.map (fun l => l ++ ['\n'])).map stripNl = e.lines := by
    rw [List.map_map]
    conv_rhs => rw [show e.lines = e.lines.map id from (List.map_id _).symm]
    exact List.map_congr_left (fun l _ => stripNl_concat_newline l)
  rw [hmap]
  dsimp only [EditorState.numlines]
  rw [if_neg (by simpa using fun hh => h1 (List.eq_nil_of_length_eq_zero hh))]
  simp

/-- C8 witness: the claim's document `["abc", "", "de"]` survives the
save/load round-trip unchanged. -/
theorem C8_save_load_roundtrip_witness :
    ([['a','b','c'], [], ['d','e']] : List Line) ≠ [] ∧
    (editor_load_file
      (FileResult.content
        ((editor_save_file (fun _ => true)
          { c8base with lines := [['a','b','c'], [], ['d','e']] }).2.2.getD []))
      c8base).lines = [['a','b','c'], [], ['d','e']] :=
  ⟨by decide,
   C8_save_load_roundtrip
     { c8base with lines := [['a','b','c'], [], ['d','e']] } c8base
     (by decide) (by decide) rfl⟩

/-! ## C9 -/

/-- The confirmation prompt shown on Ctrl+X with unsaved changes. -/
def promptMsg : String :=
  "File modified. Ctrl+O to save, Ctrl+X to exit without saving."

/-- C9: with the modified flag set, a single Ctrl+X never exits: it shows
the confirmation prompt and consumes exactly one more input event; any
non-Ctrl+X follow-up cancels the exit with that event discarded unprocessed
(the state is unchanged except for the prompt message), while a second
consecutive Ctrl+X terminates the session. -/
theorem C9_exit_protocol (e : EditorState) (writable : String → Bool)
    (h : e.modified = true) :
    (∀ c2 rest, c2 ≠ 24 →
      editor_process_key 24 (c2 :: rest) writable e =
        ({ e with statusmsg := promptMsg }, rest, false)) ∧
    (∀ rest,
      editor_process_key 24 (24 :: rest) writable e =
        ({ e with statusmsg := promptMsg }, rest, true)) := by
  constructor
  · intro c2 rest hc
    unfold editor_process_key editor_status_message
    rw [if_pos rfl, if_pos h]
    dsimp only
    rw [if_pos hc]
    rfl
  · intro rest
    unfold editor_process_key editor_status_message
    rw [if_pos rfl, if_pos h]
    dsimp only
    rw [if_neg (by simp)]
    rfl

/-- A modified one-line document. -/
def c9ex : EditorState :=
  { lines := [['a']], row := 0, col := 0, topline := 0, leftcol := 0,
    screenrows := 24, screencols := 80, filename := none, modified := true,
    statusmsg := "" }

/-- C9 witness: on a modified buffer, Ctrl+X then `'a'` (97) stays open
with the `'a'` swallowed; Ctrl+X twice exits. -/
theorem C9_exit_protocol_witness :
    c9ex.modified = true ∧
    editor_process_key 24 [97] (fun _ => true) c9ex =
      ({ c9ex with statusmsg := promptMsg }, [], false) ∧
    editor_process_key 24 [24] (fun _ => true) c9ex =
      ({ c9ex with statusmsg := promptMsg }, [], true) :=
  ⟨rfl, (C9_exit_protocol c9ex (fun _ => true) rfl).1 97 [] (by decide),
   (C9_exit_protocol c9ex (fun _ => true) rfl).2 []⟩

/-! ## C10 -/

/-- Every `editor_init` path inserts at least one line through
`editor_insert_line`, which sets the modified flag. -/
lemma init_modified_true (filename : Option String) (fr : FileResult)
    (rows cols : Int) : (editor_init filename fr rows cols).modified = true := by
  unfold editor_init editor_status_message
  dsimp only
  rcases filename with _ | f
  · unfold editor_insert_line
    dsimp only [EditorState.numlines]
    rw [if_neg (by omega)]
  · unfold editor_load_file
    rcases fr with _ | _ | cs
    · unfold editor_insert_line
      dsimp only [EditorState.numlines]
      rw [if_neg (by omega)]
    · unfold editor_insert_line editor_status_message
      dsimp only [EditorState.numlines]
      rw [if_neg (by omega)]
    · dsimp only
      rw [load_foldl]
      dsimp only [EditorState.numlines]
      split_ifs with h0
      · unfold editor_insert_line
        dsimp only [EditorState.numlines]
        rw [if_neg (by omega)]
      · dsimp only
        simp only [List.nil_append, List.length_map] at h0 ⊢
        have : ¬ (getlines cs).isEmpty := by
          rw [List.isEmpty_iff]
          intro hh
          rw [hh] at h0
          exact h0 (by simp)
        simp [this]

/-- C10: immediately after initialization — named file loaded, file absent,
unreadable, or no filename at all — the modified flag is already true before
any user edit, because every line (including the single initial empty line)
enters the buffer through `editor_insert_line`; consequently a fresh,
untouched session already demands the two-step exit confirmation. -/
theorem C10_init_always_modified (filename : Option String) (fr : FileResult)
    (rows cols : Int) :
    (editor_init filename fr rows cols).modified = true ∧
    (∀ c2 rest (writable : String → Bool), c2 ≠ 24 →
      (editor_process_key 24 (c2 :: rest) writable
        (editor_init filename fr rows cols)).2.2 = false) := by
  refine ⟨init_modified_true filename fr rows cols, ?_⟩
  intro c2 rest writable hc
  unfold editor_process_key
  rw [if_pos rfl, if_pos (init_modified_true filename fr rows cols)]
  dsimp only
  rw [if_pos hc]

/-- C10 witness: a fresh empty session and a freshly loaded one-line file
both start modified, and a single Ctrl+X on the fresh session does not
exit. -/
theorem C10_init_always_modified_witness :
    (editor_init none FileResult.absent 24 80).modified = true ∧
    (editor_init (some "f") (FileResult.content ['a', '\n']) 24 80).modified
      = true ∧
    (editor_process_key 24 [97] (fun _ => true)
      (editor_init none FileResult.absent 24 80)).2.2 = false :=
  ⟨(C10_init_always_modified none FileResult.absent 24 80).1,
   (C10_init_always_modified (some "f") (FileResult.content ['a', '\n']) 24 80).1,
   (C10_init_always_modified none FileResult.absent 24 80).2 97 [] _ (by decide)⟩
